import Mathlib

/-!
Verification of the job filtering and deduplication pipeline.

A shallow embedding of the core logic of the UI/UX internship aggregator:
the relevance scorer (`src/filters/keyword_filter.py`, class `KeywordFilter`)
and the deduplicator (`src/utils/deduplicator.py`, class `JobDeduplicator`),
together with proofs of the specified properties.

Modelling conventions:
* A Python job dictionary is a `Job` structure whose fields are `Option`s:
  `none` models a missing key (or a stored Python `None`, which every
  consumer in the code collapses to the empty string before use), and
  `some s` models a present string value.  Non-string values (floats, NaN)
  are modelled by the string Python's `str` coercion produces for them
  (e.g. `"nan"`), since both consumers stringify the field before use.
* Python string operations are mapped to their Lean counterparts:
  `lower` to `String.toLower`, `strip` to `String.trim`, slicing `[:n]` to
  `String.take`, and the substring operator `in` to `pyIn` below.
* `difflib.SequenceMatcher(None, a, b).ratio()` is modelled exactly
  (including the `autojunk` heuristic for `len(b) >= 200`), except that the
  result and the 0.85 threshold comparison are carried out in `ℚ` rather
  than binary floating point: the ratio `2*M/T` and the literal `0.85`
  round to the same double whenever they are equal as rationals, and
  otherwise differ by at least `1/(20*T)`, far above double rounding error
  for any feasible string length, so the comparison agrees with CPython.
* Scores are `Int` (Python ints; exclusions make them negative).
-/

namespace JobPipeline

/-- The `score_breakdown` dictionary attached by
`KeywordFilter.calculate_relevance_score`. -/
structure Breakdown where
  title_matches : List String
  title_excludes : List String
  description_matches : List String
  total_score : Int
deriving DecidableEq

/-- A canonical job record (a Python dict with a fixed schema).  `none`
models an absent key. -/
structure Job where
  id : Option String := none
  title : Option String := none
  company : Option String := none
  location : Option String := none
  description : Option String := none
  url : Option String := none
  posted_date : Option String := none
  source : Option String := none
  relevance_score : Option Int := none
  score_breakdown : Option Breakdown := none
deriving DecidableEq

/-!
Python string values are manipulated as their character lists
(`String.data`), because the corresponding core `String` functions
(`toLower`, `trim`, `take`) walk byte positions by well-founded recursion
and therefore do not evaluate inside the kernel; the list versions below
are structurally recursive and definitionally executable.  The modelled
inputs are ASCII, for which Lean's `Char.toLower`/`Char.isWhitespace`
agree with Python's `str.lower`/`str.strip`.
-/

/-- `str(job.get(key, ''))` as a character list: a missing key yields the
empty string. -/
def pyStr (o : Option String) : List Char := (o.getD "").data

/-- Python `s.lower()`. -/
def pyLower (s : List Char) : List Char := s.map Char.toLower

/-- Python `s.strip()`: drop leading and trailing whitespace. -/
def pyStrip (s : List Char) : List Char :=
  ((s.dropWhile Char.isWhitespace).reverse.dropWhile Char.isWhitespace).reverse

/-- The deduplicator's field normalisation:
`str(raw).lower().strip() if raw not in [None, ''] else ''` (the guarded
branch also yields `""` on `""`, so the guard is subsumed). -/
def normField (o : Option String) : List Char := pyStrip (pyLower (pyStr o))

/-- Python's substring test `needle in hay` on lists of characters. -/
def isSubstrL (needle : List Char) : List Char → Bool
  | [] => needle.isEmpty
  | c :: rest => needle.isPrefixOf (c :: rest) || isSubstrL needle rest

/-- Python's substring test `needle in hay` (needle a keyword string, hay a
character list). -/
def pyIn (needle : String) (hay : List Char) : Bool := isSubstrL needle.data hay

/-! ## difflib.SequenceMatcher

A faithful model of CPython's `difflib.SequenceMatcher` with `isjunk=None`,
computing the total size of the matching blocks (which is all `ratio`
needs).  `b2j` maps each character to its ascending occurrence indices in
`b`, with "popular" characters removed when the autojunk heuristic applies
(`len(b) >= 200` and the character occurs more than `len(b)//100 + 1`
times).  Since `isjunk=None`, the `bjunk` set is empty, so only the two
non-junk extension loops of `find_longest_match` can fire. -/

/-- Ascending occurrence indices of `c` in `b`. -/
def charIndices (b : List Char) (c : Char) : List Nat :=
  (List.range b.length).filter (fun j => b.getD j ' ' == c)

/-- `self.b2j` after `__chain_b`: occurrence indices, with autojunk-popular
characters deleted. -/
def b2j (b : List Char) (c : Char) : List Nat :=
  if 200 ≤ b.length ∧ b.length / 100 + 1 < b.count c then []
  else charIndices b c

/-- `j2len.get(j, 0)` on the association-list model of the `j2len` dict. -/
def j2get (m : List (Nat × Nat)) (j : Nat) : Nat :=
  match m.find? (fun p => p.1 == j) with
  | some p => p.2
  | none => 0

/-- The inner loop of `find_longest_match` over `b2j[a[i]]` for one row
`i`: skips `j < blo`, stops at `j >= bhi`, extends chains via the previous
row's `j2len`, and tracks the best block seen so far (strict improvement
only, so the earliest longest block wins).  Returns the new `j2len` and the
updated `(besti, bestj, bestsize)`. -/
def flmRow (j2len : List (Nat × Nat)) (i blo bhi : Nat) :
    List Nat → List (Nat × Nat) → Nat × Nat × Nat → List (Nat × Nat) × (Nat × Nat × Nat)
  | [], acc, st => (acc, st)
  | j :: js, acc, st =>
    if j < blo then flmRow j2len i blo bhi js acc st
    else if bhi ≤ j then (acc, st)
    else
      let k := (if j = 0 then 0 else j2get j2len (j - 1)) + 1
      let st' := if st.2.2 < k then (i + 1 - k, j + 1 - k, k) else st
      flmRow j2len i blo bhi js ((j, k) :: acc) st'

/-- The outer loop of `find_longest_match` over the rows `i ∈ [alo, ahi)`. -/
def flmRows (a : List Char) (bj : Char → List Nat) (blo bhi : Nat) :
    List Nat → List (Nat × Nat) → Nat × Nat × Nat → Nat × Nat × Nat
  | [], _, st => st
  | i :: rows, j2len, st =>
    let r := flmRow j2len i blo bhi (bj (a.getD i ' ')) [] st
    flmRows a bj blo bhi rows r.1 r.2

/-- The leftward extension loop of `find_longest_match` (with an empty
junk set).  Structural recursion on a fuel argument that is kept equal to
`besti`: the loop decrements `besti` once per iteration and requires
`alo < besti`, so when the fuel (that is, `besti`) reaches `0` the guard is
false and stopping is exactly what the loop does. -/
def extendLeft (a b : List Char) (alo blo : Nat) :
    Nat → Nat → Nat → Nat → Nat × Nat × Nat
  | 0, besti, bestj, bestsize => (besti, bestj, bestsize)
  | fuel + 1, besti, bestj, bestsize =>
    if alo < besti ∧ blo < bestj ∧
        a.getD (besti - 1) ' ' == b.getD (bestj - 1) ' ' then
      extendLeft a b alo blo fuel (besti - 1) (bestj - 1) (bestsize + 1)
    else (besti, bestj, bestsize)

/-- The rightward extension loop of `find_longest_match` (with an empty
junk set).  Structural recursion on a fuel kept equal to
`ahi - (besti + bestsize)`: the loop increments `bestsize` once per
iteration and requires `besti + bestsize < ahi`, so at fuel `0` the guard
is false and stopping matches the loop. -/
def extendRight (a b : List Char) (ahi bhi besti bestj : Nat) :
    Nat → Nat → Nat
  | 0, bestsize => bestsize
  | fuel + 1, bestsize =>
    if besti + bestsize < ahi ∧ bestj + bestsize < bhi ∧
        a.getD (besti + bestsize) ' ' == b.getD (bestj + bestsize) ' ' then
      extendRight a b ahi bhi besti bestj fuel (bestsize + 1)
    else bestsize

/-- `SequenceMatcher.find_longest_match(alo, ahi, blo, bhi)`. -/
def find_longest_match (a b : List Char) (bj : Char → List Nat)
    (alo ahi blo bhi : Nat) : Nat × Nat × Nat :=
  let st := flmRows a bj blo bhi (List.range' alo (ahi - alo)) [] (alo, blo, 0)
  let l := extendLeft a b alo blo st.1 st.1 st.2.1 st.2.2
  let size := extendRight a b ahi bhi l.1 l.2.1 (ahi - (l.1 + l.2.2)) l.2.2
  (l.1, l.2.1, size)

/-- The recursion of `get_matching_blocks`, summing the sizes of all found
blocks (the queue order and the final merge step do not affect the sum).
The fuel argument dominates the recursion depth: each recursive call
strictly shrinks `(ahi - alo) + (bhi - blo)`, so the initial fuel
`len(a) + len(b) + 1` is never exhausted. -/
def matchingTotal (a b : List Char) (bj : Char → List Nat) :
    Nat → Nat → Nat → Nat → Nat → Nat
  | 0, _, _, _, _ => 0
  | fuel + 1, alo, ahi, blo, bhi =>
    let m := find_longest_match a b bj alo ahi blo bhi
    if m.2.2 = 0 then 0
    else
      m.2.2 +
        (if alo < m.1 ∧ blo < m.2.1 then
          matchingTotal a b bj fuel alo m.1 blo m.2.1 else 0) +
        (if m.1 + m.2.2 < ahi ∧ m.2.1 + m.2.2 < bhi then
          matchingTotal a b bj fuel (m.1 + m.2.2) ahi (m.2.1 + m.2.2) bhi else 0)

/-- `sum(triple[-1] for triple in sm.get_matching_blocks())`. -/
def sequenceMatcherMatches (a b : List Char) : Nat :=
  matchingTotal a b (b2j b) (a.length + b.length + 1) 0 a.length 0 b.length

/-- `SequenceMatcher.ratio()`: `2.0 * matches / (len(a) + len(b))`, or `1.0`
for two empty sequences, carried out in `ℚ` (built with `mkRat`, which is
the same rational as the division and, unlike the `Div ℚ` instance,
evaluates inside the kernel). -/
def pyRatio (a b : List Char) : ℚ :=
  if a.length + b.length = 0 then 1
  else mkRat (2 * sequenceMatcherMatches a b) (a.length + b.length)

/-- `JobDeduplicator.calculate_similarity`: the ratio of the two lower-cased
strings. -/
def calculate_similarity (str1 str2 : List Char) : ℚ :=
  pyRatio (pyLower str1) (pyLower str2)

/-! ## JobDeduplicator -/

/-- `JobDeduplicator`: carries the title-similarity threshold
(constructor default `0.85`, the rational `17/20`). -/
structure JobDeduplicator where
  title_threshold : ℚ := mkRat 17 20
deriving DecidableEq

/-- A deduplicator built with the constructor's default threshold. -/
def defaultDedup : JobDeduplicator := {}

/-- The sentinel test `s in ['nan', 'none', '']` applied to a normalised
company or title. -/
def isSentinel (s : List Char) : Bool :=
  s == "nan".data || s == "none".data || s.isEmpty

/-- `JobDeduplicator.are_jobs_duplicate`: returns `(is_duplicate, reason)`.
The rules fire in source order: exact id equality, sentinel/invalid
company, different companies, sentinel/invalid title, exact title match,
fuzzy title similarity against the threshold.  The reason strings follow
the source; the two-decimal rendering of the ratio interpolated into the
"Similar titles" reason is elided (it feeds only log output and the
diagnostic `find_duplicates`, and no property depends on it). -/
def are_jobs_duplicate (d : JobDeduplicator) (job1 job2 : Job) : Bool × String :=
  if job1.id = job2.id then (true, "Exact ID match")
  else
    let company1 := normField job1.company
    let company2 := normField job2.company
    if isSentinel company1 || isSentinel company2 then
      (false, "Missing or invalid company")
    else if company1 ≠ company2 then (false, "Different companies")
    else
      let title1 := normField job1.title
      let title2 := normField job2.title
      if isSentinel title1 || isSentinel title2 then
        (false, "Missing or invalid title")
      else if title1 = title2 then
        (true, "Exact match: " ++ String.mk company1)
      else
        let similarity := calculate_similarity title1 title2
        if d.title_threshold ≤ similarity then
          (true, "Similar titles: " ++ String.mk company1)
        else (false, "Different roles at " ++ String.mk company1)

/-- One iteration of the `deduplicate` loop body for an incoming `job`:
scan `unique_jobs` for the first entry judged a duplicate of `job`; if none
is found append `job`; otherwise keep the better-scored of the two
(`list.remove` deletes the first structurally equal entry, which is
`List.erase`), with ties discarding the incoming job. -/
def dedupStep (d : JobDeduplicator) (unique_jobs : List Job) (job : Job) : List Job :=
  match unique_jobs.find? (fun e => (are_jobs_duplicate d job e).1) with
  | none => unique_jobs ++ [job]
  | some existing_job =>
    if existing_job.relevance_score.getD 0 < job.relevance_score.getD 0 then
      (unique_jobs.erase existing_job) ++ [job]
    else unique_jobs

/-- `JobDeduplicator.deduplicate`: the early `if not jobs: return []`
branch, then the accumulating loop over the input. -/
def deduplicate (d : JobDeduplicator) (jobs : List Job) : List Job :=
  match jobs with
  | [] => []
  | _ => jobs.foldl (dedupStep d) []

/-! ## KeywordFilter -/

/-- The scorer's configuration after `__init__` has lower-cased every
keyword list and read `minimum_match_score` (default 3). -/
structure KeywordFilter where
  internship_keywords : List String
  include_title : List String
  exclude_title : List String
  include_description : List String
  minimum_score : Int := 3
deriving DecidableEq

/-- `str(job.get('title', '')).lower()`. -/
def lowerTitle (job : Job) : List Char := pyLower (pyStr job.title)

/-- `str(job.get('description', '')).lower()`. -/
def lowerDescription (job : Job) : List Char := pyLower (pyStr job.description)

/-- `KeywordFilter.is_internship`: any internship keyword in the lower-cased
title, else any of the first three internship keywords in the first 500
characters of the lower-cased description. -/
def is_internship (kf : KeywordFilter) (job : Job) : Bool :=
  let title := lowerTitle job
  let description := lowerDescription job
  if kf.internship_keywords.any (fun k => pyIn k title) then true
  else (kf.internship_keywords.take 3).any (fun k => pyIn k (description.take 500))

/-- `KeywordFilter.calculate_relevance_score`: three sequential loops over
the keyword lists, accumulating `+3` per `include_title` match, `-10` per
`exclude_title` match and `+1` per `include_description` match, recording
matched keywords in the breakdown in traversal order. -/
def calculate_relevance_score (kf : KeywordFilter) (job : Job) : Int × Breakdown :=
  let title := lowerTitle job
  let description := lowerDescription job
  let p1 := kf.include_title.foldl
    (fun p k => if pyIn k title then (p.1 + 3, p.2 ++ [k]) else p)
    ((0 : Int), ([] : List String))
  let p2 := kf.exclude_title.foldl
    (fun p k => if pyIn k title then (p.1 - 10, p.2 ++ [k]) else p)
    (p1.1, ([] : List String))
  let p3 := kf.include_description.foldl
    (fun p k => if pyIn k description then (p.1 + 1, p.2 ++ [k]) else p)
    (p2.1, ([] : List String))
  (p3.1,
   { title_matches := p1.2, title_excludes := p2.2,
     description_matches := p3.2, total_score := p3.1 })

/-- `KeywordFilter.is_relevant`: score meets the minimum threshold. -/
def is_relevant (kf : KeywordFilter) (job : Job) : Bool :=
  kf.minimum_score ≤ (calculate_relevance_score kf job).1

/-- The attachment performed on a kept job inside `filter_jobs`:
`job['relevance_score'] = score; job['score_breakdown'] = breakdown`. -/
def attachScore (kf : KeywordFilter) (job : Job) : Job :=
  let sb := calculate_relevance_score kf job
  { job with relevance_score := some sb.1, score_breakdown := some sb.2 }

/-- The loop body of `filter_jobs`: skip non-internships when required,
then keep (with scores attached) exactly the jobs meeting the threshold. -/
def scoreStep (kf : KeywordFilter) (require_internship : Bool)
    (acc : List Job) (job : Job) : List Job :=
  if require_internship && !(is_internship kf job) then acc
  else if kf.minimum_score ≤ (calculate_relevance_score kf job).1 then
    acc ++ [attachScore kf job]
  else acc

/-- The combined keep-condition of `filter_jobs` for one job. -/
def keepJob (kf : KeywordFilter) (require_internship : Bool) (job : Job) : Bool :=
  (!require_internship || is_internship kf job) &&
    (kf.minimum_score ≤ (calculate_relevance_score kf job).1)

/-- The sort key `x['relevance_score']` used by `filter_jobs` (always
present on the jobs being sorted, which all went through `attachScore`). -/
def sortKey (j : Job) : Int := j.relevance_score.getD 0

/-- The ordering `filter_jobs` sorts by: descending `relevance_score`. -/
def scoreDesc (a b : Job) : Prop := sortKey b ≤ sortKey a

instance : DecidableRel scoreDesc := fun a b =>
  inferInstanceAs (Decidable (sortKey b ≤ sortKey a))

instance : IsTotal Job scoreDesc :=
  ⟨fun a b => le_total (sortKey b) (sortKey a)⟩

instance : IsTrans Job scoreDesc :=
  ⟨fun _ _ _ h1 h2 => le_trans h2 h1⟩

/-- `KeywordFilter.filter_jobs`: the filtering loop followed by
`filtered_jobs.sort(key=lambda x: x['relevance_score'], reverse=True)`.
CPython's `list.sort` is a stable sort; with `reverse=True` it produces the
unique stable descending arrangement, which is what stable insertion sort
by the non-strict descending order computes. -/
def filter_jobs (kf : KeywordFilter) (jobs : List Job)
    (require_internship : Bool) : List Job :=
  let filtered_jobs := jobs.foldl (scoreStep kf require_internship) []
  filtered_jobs.insertionSort scoreDesc

/-! ## get_statistics -/

/-- The statistics dictionary returned by `KeywordFilter.get_statistics`.
`average_score` is Python float division, modelled in `ℚ`; `top_keywords`
is a dict whose insertion order is the sorted order, modelled as an
association list. -/
structure Stats where
  total : Nat
  average_score : ℚ
  score_range : Int × Int
  top_keywords : List (String × Nat)
deriving DecidableEq

/-- `keyword_counts[keyword] = keyword_counts.get(keyword, 0) + 1` on an
insertion-ordered dict modelled as an association list. -/
def bumpCount : List (String × Nat) → String → List (String × Nat)
  | [], k => [(k, 1)]
  | (k', n) :: rest, k =>
    if k' = k then (k', n + 1) :: rest else (k', n) :: bumpCount rest k

/-- The ordering used for `top_keywords`: descending count
(`sorted(..., key=lambda x: x[1], reverse=True)`, a stable sort). -/
def countDesc (a b : String × Nat) : Prop := b.2 ≤ a.2

instance : DecidableRel countDesc := fun a b =>
  inferInstanceAs (Decidable (b.2 ≤ a.2))

/-- `min(scores)` on a non-empty list (0 on [], unreachable there). -/
def pyMin (l : List Int) : Int :=
  match l with
  | [] => 0
  | x :: xs => xs.foldl min x

/-- `max(scores)` on a non-empty list (0 on [], unreachable there). -/
def pyMax (l : List Int) : Int :=
  match l with
  | [] => 0
  | x :: xs => xs.foldl max x

/-- `KeywordFilter.get_statistics`.  The non-empty branch reads
`j['relevance_score']` by direct indexing, which raises `KeyError` when a
job was never scored; that failure is modelled by `Option` via `mapM`. -/
def get_statistics (jobs : List Job) : Option Stats :=
  match jobs with
  | [] => some { total := 0, average_score := 0, score_range := (0, 0), top_keywords := [] }
  | _ => do
    let scores ← jobs.mapM (fun j => j.relevance_score)
    let counts := jobs.foldl
      (fun m job => (((job.score_breakdown.map Breakdown.title_matches).getD []).foldl bumpCount m))
      []
    some { total := jobs.length,
           average_score := ((scores.sum : Int) : ℚ) / ((scores.length : Nat) : ℚ),
           score_range := (pyMin scores, pyMax scores),
           top_keywords := (counts.insertionSort countDesc).take 10 }

/-! ## Field-preservation predicate (frame property) -/

/-- Two jobs agree on every field other than `relevance_score` and
`score_breakdown`. -/
def sameCore (j j' : Job) : Prop :=
  j.title = j'.title ∧ j.company = j'.company ∧ j.location = j'.location ∧
  j.description = j'.description ∧ j.url = j'.url ∧
  j.posted_date = j'.posted_date ∧ j.source = j'.source ∧ j.id = j'.id

instance (j j' : Job) : Decidable (sameCore j j') :=
  inferInstanceAs (Decidable (_ ∧ _))

/-! ## Concrete records used in counterexamples and witnesses -/

/-- Counterexample input for idempotence: id "1", company "x", title "t",
score 1. -/
def exJobA : Job :=
  { id := some "1", company := some "x", title := some "t", relevance_score := some 1 }

/-- Counterexample input: id "2", company "y", title "s", score 5. -/
def exJobB : Job :=
  { id := some "2", company := some "y", title := some "s", relevance_score := some 5 }

/-- Counterexample input: same id as `exJobA` but same company and title as
`exJobB`, score 3. -/
def exJobC : Job :=
  { id := some "1", company := some "y", title := some "s", relevance_score := some 3 }

/-- A job whose stringified company is the sentinel "nan" and whose `id`
key is absent. -/
def nanJob1 : Job := { company := some "nan", title := some "design intern" }

/-- A second id-less job with a valid company. -/
def nanJob2 : Job := { company := some "acme", title := some "barista" }

/-- Valid-id variant of `nanJob1` for the amended sentinel-company rule. -/
def invJob1 : Job :=
  { id := some "s1", company := some "nan", title := some "design intern" }

/-- Valid-id variant of `nanJob2`. -/
def invJob2 : Job :=
  { id := some "s2", company := some "acme", title := some "design intern" }

/-- Title pair on which `SequenceMatcher.ratio` is order-dependent across
the 0.85 threshold: ratio("bacdacd","baccdad") = 6/7 but the reverse is
5/7. -/
def simJob1 : Job :=
  { id := some "a1", company := some "figma", title := some "bacdacd" }

/-- The other side of the asymmetric-similarity pair. -/
def simJob2 : Job :=
  { id := some "a2", company := some "figma", title := some "baccdad" }

/-- Symmetric-case jobs for the amended symmetry rule (distinct companies). -/
def symJob1 : Job := { id := some "w1", company := some "x", title := some "t" }

/-- Second symmetric-case job. -/
def symJob2 : Job := { id := some "w2", company := some "y", title := some "s" }

/-- Jobs with no `id` key at all (both lookups default to `None`). -/
def noIdJob1 : Job := { company := some "alpha", title := some "roleone" }

/-- Second id-less job with unrelated company and title. -/
def noIdJob2 : Job := { company := some "beta", title := some "othertwo" }

/-- A small keyword configuration (already lower-cased, as `__init__`
produces). -/
def kf0 : KeywordFilter :=
  { internship_keywords := ["intern", "internship", "co-op"],
    include_title := ["design", "ux"],
    exclude_title := ["software"],
    include_description := ["figma"] }

/-- A job matching `kf0`: title hits "design", "ux" and "intern",
description hits "figma". -/
def jobD : Job :=
  { title := some "UX Design Intern", description := some "We use Figma daily" }

/-! ## Helper lemmas -/

/-- The accumulating deduplication loop only ever appends the incoming job
or erases one accumulated entry, so it maps sublists to sublists: if the
accumulator is a sublist of `pre`, the final result is a sublist of
`pre ++ l`. -/
theorem foldl_dedupStep_sublist (d : JobDeduplicator) :
    ∀ (l : List Job) (acc pre : List Job), acc.Sublist pre →
      (l.foldl (dedupStep d) acc).Sublist (pre ++ l) := by
  intro l
  induction l with
  | nil => intro acc pre h; simpa using h
  | cons x l ih =>
    intro acc pre h
    rw [List.foldl_cons]
    have hstep : (dedupStep d acc x).Sublist (pre ++ [x]) := by
      unfold dedupStep
      cases hf : acc.find? (fun e => (are_jobs_duplicate d x e).1) with
      | none =>
        exact h.append (List.Sublist.refl [x])
      | some e =>
        show (if e.relevance_score.getD 0 < x.relevance_score.getD 0 then
            acc.erase e ++ [x] else acc).Sublist (pre ++ [x])
        split
        · exact ((List.erase_sublist e acc).trans h).append (List.Sublist.refl [x])
        · exact h.trans (List.sublist_append_left pre [x])
    simpa [List.append_assoc] using ih (dedupStep d acc x) (pre ++ [x]) hstep

/-- `deduplicate` returns a sublist of its input (survivors keep the
input's relative order). -/
theorem dedup_sublist_aux (d : JobDeduplicator) (jobs : List Job) :
    (deduplicate d jobs).Sublist jobs := by
  cases jobs with
  | nil => exact List.Sublist.refl []
  | cons x l =>
    have h := foldl_dedupStep_sublist d (x :: l) [] [] (List.Sublist.refl [])
    simpa using h

/-- If no incoming job is a duplicate of anything accumulated so far nor of
any earlier incoming job, the loop appends everything in order. -/
theorem foldl_dedupStep_id (d : JobDeduplicator) :
    ∀ (l : List Job) (acc : List Job),
      (∀ x ∈ l, ∀ e ∈ acc, (are_jobs_duplicate d x e).1 = false) →
      l.Pairwise (fun a b => (are_jobs_duplicate d b a).1 = false) →
      l.foldl (dedupStep d) acc = acc ++ l := by
  intro l
  induction l with
  | nil => intro acc _ _; simp
  | cons x l ih =>
    intro acc hacc hpw
    rw [List.foldl_cons]
    have hfind : acc.find? (fun e => (are_jobs_duplicate d x e).1) = none := by
      rw [List.find?_eq_none]
      intro e he
      simp [hacc x (List.mem_cons_self x l) e he]
    have hstep : dedupStep d acc x = acc ++ [x] := by
      unfold dedupStep
      rw [hfind]
    rw [List.pairwise_cons] at hpw
    rw [hstep, ih (acc ++ [x]) ?_ hpw.2]
    · simp
    · intro y hy e he
      rcases List.mem_append.mp he with h1 | h1
      · exact hacc y (List.mem_cons_of_mem x hy) e h1
      · rcases List.mem_singleton.mp h1 with rfl
        exact hpw.1 y hy

/-! ## Claim theorems -/

/-- C9: on the empty job list every core operation returns its well-defined
empty/zeroed result: `get_statistics([])` is exactly
`{total: 0, average_score: 0, score_range: (0, 0), top_keywords: {}}`, and
`deduplicate([])` and `filter_jobs([])` are the empty list (no exception:
all three are total functions here, and the statistics value is `some`). -/
theorem empty_input_results (d : JobDeduplicator) (kf : KeywordFilter) (req : Bool) :
    get_statistics [] =
      some { total := 0, average_score := 0, score_range := (0, 0), top_keywords := [] } ∧
    deduplicate d [] = [] ∧ filter_jobs kf [] req = [] :=
  ⟨rfl, rfl, rfl⟩

/-- C10: when neither job has an `id` field, both lookups yield the same
missing-value default and `are_jobs_duplicate` answers duplicate with
reason "Exact ID match", before any company or title rule is consulted. -/
theorem are_jobs_duplicate_missing_ids (d : JobDeduplicator) (job1 job2 : Job)
    (h1 : job1.id = none) (h2 : job2.id = none) :
    are_jobs_duplicate d job1 job2 = (true, "Exact ID match") := by
  unfold are_jobs_duplicate
  rw [h1, h2]
  simp

/-- Witness for C10: two id-less jobs with unrelated companies and titles
are judged duplicates by the id rule. -/
theorem are_jobs_duplicate_missing_ids_witness :
    are_jobs_duplicate defaultDedup noIdJob1 noIdJob2 = (true, "Exact ID match") :=
  are_jobs_duplicate_missing_ids defaultDedup noIdJob1 noIdJob2 rfl rfl

/-- Counterexample for C3: a pair in which one company normalises to the
sentinel "nan" and yet `are_jobs_duplicate` answers duplicate, because both
jobs lack an `id` and the id-equality rule fires first. -/
theorem nan_company_still_duplicate_cex :
    isSentinel (normField nanJob1.company) = true ∧
    (are_jobs_duplicate defaultDedup nanJob1 nanJob2).1 = true := by decide

/-- C3 (amended): provided the two id lookups differ, a company that
normalises to "nan", "none" or the empty string on either side makes the
pair not-duplicate regardless of titles and title similarity. -/
theorem invalid_company_not_duplicate (d : JobDeduplicator) (job1 job2 : Job)
    (hid : ¬ job1.id = job2.id)
    (hc : isSentinel (normField job1.company) = true ∨
          isSentinel (normField job2.company) = true) :
    are_jobs_duplicate d job1 job2 = (false, "Missing or invalid company") := by
  unfold are_jobs_duplicate
  rw [if_neg hid, if_pos]
  rcases hc with h | h <;> simp [h]

/-- Witness for the amended C3: distinct ids, company "nan" on the left,
identical titles — still not a duplicate. -/
theorem invalid_company_not_duplicate_witness :
    are_jobs_duplicate defaultDedup invJob1 invJob2 =
      (false, "Missing or invalid company") :=
  invalid_company_not_duplicate defaultDedup invJob1 invJob2 (by decide) (by decide)

/-- C2: the output of `deduplicate` preserves the input's relative order —
it is a sublist of the input: the only changes are removals (of the
replaced or discarded duplicates), and an incoming job that replaces a
matched entry occupies its own input position among the survivors. -/
theorem deduplicate_sublist_input (d : JobDeduplicator) (jobs : List Job) :
    (deduplicate d jobs).Sublist jobs :=
  dedup_sublist_aux d jobs

/-- Counterexample for C1: `deduplicate` is not idempotent.  On
`[exJobA, exJobB, exJobC]` the third job matches `exJobA` by id and, having
the higher score, replaces it — but the replacement is appended at the end,
where it forms a (company, exact-title) duplicate pair with the surviving
`exJobB`; a second run collapses that pair. -/
theorem deduplicate_not_idempotent_cex :
    deduplicate defaultDedup (deduplicate defaultDedup [exJobA, exJobB, exJobC]) ≠
      deduplicate defaultDedup [exJobA, exJobB, exJobC] := by decide

/-- C1 (amended): `deduplicate` is the identity on any list containing no
pair that `are_jobs_duplicate` judges duplicate (in either orientation);
hence a second run returns the first run's output unchanged whenever that
output is duplicate-free — which, as the counterexample shows, the
replacement step does not always guarantee. -/
theorem deduplicate_id_of_pairwise_not_duplicate (d : JobDeduplicator)
    (jobs : List Job)
    (h : jobs.Pairwise (fun a b => (are_jobs_duplicate d a b).1 = false ∧
        (are_jobs_duplicate d b a).1 = false)) :
    deduplicate d jobs = jobs := by
  cases jobs with
  | nil => rfl
  | cons x l =>
    show (x :: l).foldl (dedupStep d) [] = x :: l
    have h2 := foldl_dedupStep_id d (x :: l) []
      (by intro y _ e he; cases he)
      ((List.Pairwise.imp (fun hab => hab.2)) h)
    simpa using h2

/-- Witness for the amended C1: a pairwise non-duplicate two-job list is a
fixed point of `deduplicate`. -/
theorem deduplicate_id_of_pairwise_not_duplicate_witness :
    deduplicate defaultDedup [exJobA, exJobB] = [exJobA, exJobB] :=
  deduplicate_id_of_pairwise_not_duplicate defaultDedup [exJobA, exJobB] (by decide)

/-- Counterexample for C4: `are_jobs_duplicate` is not symmetric, because
`SequenceMatcher.ratio` is not commutative: for the titles of `simJob1` and
`simJob2` the ratio is 6/7 ≥ 0.85 one way but 5/7 < 0.85 the other way. -/
theorem are_jobs_duplicate_asymmetric_cex :
    (are_jobs_duplicate defaultDedup simJob1 simJob2).1 = true ∧
    (are_jobs_duplicate defaultDedup simJob2 simJob1).1 = false ∧
    calculate_similarity (normField simJob1.title) (normField simJob2.title) ≠
      calculate_similarity (normField simJob2.title) (normField simJob1.title) := by
  decide

/-- C4 (amended): the exact-id, sentinel, company-inequality and
exact-title rules are all symmetric, so `are_jobs_duplicate` answers the
same in both orders whenever the fuzzy threshold comparison agrees in both
directions (in particular whenever `calculate_similarity` happens to be
commutative on the two normalised titles). -/
theorem are_jobs_duplicate_symm_of_similarity_symm (d : JobDeduplicator)
    (job1 job2 : Job)
    (hsim : d.title_threshold ≤
        calculate_similarity (normField job1.title) (normField job2.title) ↔
      d.title_threshold ≤
        calculate_similarity (normField job2.title) (normField job1.title)) :
    (are_jobs_duplicate d job1 job2).1 = (are_jobs_duplicate d job2 job1).1 := by
  simp only [are_jobs_duplicate]
  by_cases hid : job1.id = job2.id
  · rw [if_pos hid, if_pos hid.symm]
  · have hid' : ¬ job2.id = job1.id := fun hh => hid hh.symm
    rw [if_neg hid, if_neg hid']
    by_cases hc : (isSentinel (normField job1.company) ||
        isSentinel (normField job2.company)) = true
    · have hc' : (isSentinel (normField job2.company) ||
          isSentinel (normField job1.company)) = true := by
        rw [Bool.or_comm]; exact hc
      rw [if_pos hc, if_pos hc']
    · have hc' : ¬ (isSentinel (normField job2.company) ||
          isSentinel (normField job1.company)) = true := by
        rw [Bool.or_comm]; exact hc
      rw [if_neg hc, if_neg hc']
      by_cases hco : normField job1.company ≠ normField job2.company
      · have hco' : normField job2.company ≠ normField job1.company :=
          fun hh => hco hh.symm
        rw [if_pos hco, if_pos hco']
      · have hco' : ¬ normField job2.company ≠ normField job1.company :=
          fun hh => hco fun hh2 => hh hh2.symm
        rw [if_neg hco, if_neg hco']
        by_cases ht : (isSentinel (normField job1.title) ||
            isSentinel (normField job2.title)) = true
        · have ht' : (isSentinel (normField job2.title) ||
              isSentinel (normField job1.title)) = true := by
            rw [Bool.or_comm]; exact ht
          rw [if_pos ht, if_pos ht']
        · have ht' : ¬ (isSentinel (normField job2.title) ||
              isSentinel (normField job1.title)) = true := by
            rw [Bool.or_comm]; exact ht
          rw [if_neg ht, if_neg ht']
          by_cases hte : normField job1.title = normField job2.title
          · rw [if_pos hte, if_pos hte.symm]
          · have hte' : ¬ normField job2.title = normField job1.title :=
              fun hh => hte hh.symm
            rw [if_neg hte, if_neg hte']
            by_cases hs : d.title_threshold ≤
                calculate_similarity (normField job1.title) (normField job2.title)
            · rw [if_pos hs, if_pos (hsim.mp hs)]
            · have hs' : ¬ d.title_threshold ≤
                  calculate_similarity (normField job2.title) (normField job1.title) :=
                fun hh => hs (hsim.mpr hh)
              rw [if_neg hs, if_neg hs']

/-- Witness for the amended C4: a pair whose titles have equal (zero)
similarity in both directions is answered symmetrically. -/
theorem are_jobs_duplicate_symm_of_similarity_symm_witness :
    (are_jobs_duplicate defaultDedup symJob1 symJob2).1 =
      (are_jobs_duplicate defaultDedup symJob2 symJob1).1 :=
  are_jobs_duplicate_symm_of_similarity_symm defaultDedup symJob1 symJob2 (by decide)

/-- C6: `is_internship` is true exactly when some internship keyword occurs
in the lower-cased title, or one of the first three internship keywords (in
configured order) occurs in the first 500 characters of the lower-cased
description. -/
theorem is_internship_iff (kf : KeywordFilter) (job : Job) :
    is_internship kf job = true ↔
      ((∃ k ∈ kf.internship_keywords, pyIn k (lowerTitle job) = true) ∨
       (∃ k ∈ kf.internship_keywords.take 3,
          pyIn k ((lowerDescription job).take 500) = true)) := by
  unfold is_internship
  by_cases h : kf.internship_keywords.any (fun k => pyIn k (lowerTitle job)) = true
  · rw [if_pos h]
    simp only [List.any_eq_true] at h
    simpa using Or.inl h
  · rw [if_neg h]
    simp only [List.any_eq_true] at h ⊢
    constructor
    · intro hd; exact Or.inr hd
    · intro hor
      rcases hor with h1 | h2
      · exact absurd h1 h
      · exact h2

/-- The accumulating keyword loop of `calculate_relevance_score`: starting
from `(s, acc)`, scanning `ks` and adding `c` plus recording each matching
keyword yields `s + c * (number of matches)` and appends the matching
keywords in order. -/
theorem foldl_match_accum (c : Int) (p : String → Bool) :
    ∀ (ks : List String) (s : Int) (acc : List String),
      ks.foldl (fun q k => if p k then (q.1 + c, q.2 ++ [k]) else q) (s, acc) =
        (s + c * ((ks.filter p).length : Int), acc ++ ks.filter p) := by
  intro ks
  induction ks with
  | nil => intro s acc; simp
  | cons k ks ih =>
    intro s acc
    rw [List.foldl_cons]
    show ks.foldl _ (if p k = true then (s + c, acc ++ [k]) else (s, acc)) = _
    by_cases h : p k = true
    · rw [if_pos h, ih (s + c) (acc ++ [k]), List.filter_cons_of_pos h]
      refine Prod.ext ?_ ?_
      · show s + c + c * ((ks.filter p).length : Int) =
          s + c * (((k :: ks.filter p).length : Nat) : Int)
        push_cast [List.length_cons]
        ring
      · show acc ++ [k] ++ ks.filter p = acc ++ (k :: ks.filter p)
        simp
    · rw [if_neg h, ih s acc, List.filter_cons_of_neg (by simp [h])]

/-- The exclusion loop of `calculate_relevance_score`, which subtracts `c`
per match. -/
theorem foldl_match_accum_sub (c : Int) (p : String → Bool) :
    ∀ (ks : List String) (s : Int) (acc : List String),
      ks.foldl (fun q k => if p k then (q.1 - c, q.2 ++ [k]) else q) (s, acc) =
        (s - c * ((ks.filter p).length : Int), acc ++ ks.filter p) := by
  intro ks
  induction ks with
  | nil => intro s acc; simp
  | cons k ks ih =>
    intro s acc
    rw [List.foldl_cons]
    show ks.foldl _ (if p k = true then (s - c, acc ++ [k]) else (s, acc)) = _
    by_cases h : p k = true
    · rw [if_pos h, ih (s - c) (acc ++ [k]), List.filter_cons_of_pos h]
      refine Prod.ext ?_ ?_
      · show s - c + -(c * ((ks.filter p).length : Int)) =
          s + -(c * (((k :: ks.filter p).length : Nat) : Int))
        push_cast [List.length_cons]
        ring
      · show acc ++ [k] ++ ks.filter p = acc ++ (k :: ks.filter p)
        simp
    · rw [if_neg h, ih s acc, List.filter_cons_of_neg (by simp [h])]

/-- C5: the relevance score is exactly
`3·|include_title matches| − 10·|exclude_title matches| +
|include_description matches|`; consequently appending one matching
`include_title` keyword to the configuration changes the score by exactly
+3, one matching `exclude_title` keyword by exactly −10, and one matching
`include_description` keyword by exactly +1. -/
theorem calculate_relevance_score_spec (kf : KeywordFilter) (job : Job) :
    ((calculate_relevance_score kf job).1 =
      3 * ((kf.include_title.filter (fun k => pyIn k (lowerTitle job))).length : Int)
        - 10 * ((kf.exclude_title.filter (fun k => pyIn k (lowerTitle job))).length : Int)
        + ((kf.include_description.filter (fun k => pyIn k (lowerDescription job))).length : Int)) ∧
    (∀ k : String, pyIn k (lowerTitle job) = true →
      (calculate_relevance_score
          { kf with include_title := kf.include_title ++ [k] } job).1 =
        (calculate_relevance_score kf job).1 + 3) ∧
    (∀ k : String, pyIn k (lowerTitle job) = true →
      (calculate_relevance_score
          { kf with exclude_title := kf.exclude_title ++ [k] } job).1 =
        (calculate_relevance_score kf job).1 - 10) ∧
    (∀ k : String, pyIn k (lowerDescription job) = true →
      (calculate_relevance_score
          { kf with include_description := kf.include_description ++ [k] } job).1 =
        (calculate_relevance_score kf job).1 + 1) := by
  obtain ⟨ik, it0, et0, id0, ms⟩ := kf
  have hform : ∀ (it et idesc : List String),
      (calculate_relevance_score ⟨ik, it, et, idesc, ms⟩ job).1 =
      3 * ((it.filter (fun k => pyIn k (lowerTitle job))).length : Int)
        - 10 * ((et.filter (fun k => pyIn k (lowerTitle job))).length : Int)
        + ((idesc.filter (fun k => pyIn k (lowerDescription job))).length : Int) := by
    intro it et idesc
    simp only [calculate_relevance_score]
    rw [foldl_match_accum 3, foldl_match_accum_sub 10, foldl_match_accum 1]
    ring
  refine ⟨hform it0 et0 id0, ?_, ?_, ?_⟩
  · intro k hk
    show (calculate_relevance_score ⟨ik, it0 ++ [k], et0, id0, ms⟩ job).1 = _
    rw [hform, hform it0 et0 id0, List.filter_append]
    rw [show List.filter (fun k2 => pyIn k2 (lowerTitle job)) [k] = [k] from by
      simp [List.filter_cons, hk]]
    push_cast [List.length_append, List.length_singleton]
    ring
  · intro k hk
    show (calculate_relevance_score ⟨ik, it0, et0 ++ [k], id0, ms⟩ job).1 = _
    rw [hform, hform it0 et0 id0, List.filter_append]
    rw [show List.filter (fun k2 => pyIn k2 (lowerTitle job)) [k] = [k] from by
      simp [List.filter_cons, hk]]
    push_cast [List.length_append, List.length_singleton]
    ring
  · intro k hk
    show (calculate_relevance_score ⟨ik, it0, et0, id0 ++ [k], ms⟩ job).1 = _
    rw [hform, hform it0 et0 id0, List.filter_append]
    rw [show List.filter (fun k2 => pyIn k2 (lowerDescription job)) [k] = [k] from by
      simp [List.filter_cons, hk]]
    push_cast [List.length_append, List.length_singleton]
    ring

/-- Witness for C5: on `kf0` and `jobD` the score is 3+3+1 = 7, and
appending the matching keyword "intern" to `include_title` raises it by
exactly 3. -/
theorem calculate_relevance_score_spec_witness :
    (calculate_relevance_score
        { kf0 with include_title := kf0.include_title ++ ["intern"] } jobD).1 =
      (calculate_relevance_score kf0 jobD).1 + 3 :=
  (calculate_relevance_score_spec kf0 jobD).2.1 "intern" (by decide)

/-- The filtering loop of `filter_jobs` appends the attached version of
exactly the jobs satisfying `keepJob`, in input order. -/
theorem foldl_scoreStep (kf : KeywordFilter) (req : Bool) :
    ∀ (jobs acc : List Job),
      jobs.foldl (scoreStep kf req) acc =
        acc ++ (jobs.filter (keepJob kf req)).map (attachScore kf) := by
  intro jobs
  induction jobs with
  | nil => intro acc; simp
  | cons x l ih =>
    intro acc
    have hstep : scoreStep kf req acc x =
        acc ++ (if keepJob kf req x then [attachScore kf x] else []) := by
      unfold scoreStep keepJob
      cases req <;> cases h : is_internship kf x <;>
        by_cases hs : kf.minimum_score ≤ (calculate_relevance_score kf x).1 <;>
          simp [h, hs]
    rw [List.foldl_cons, hstep, ih, List.filter_cons]
    by_cases h : keepJob kf req x = true <;> simp [h]

/-- `filter_jobs` in closed form: stable-sort the attached keepers. -/
theorem filter_jobs_eq (kf : KeywordFilter) (jobs : List Job) (req : Bool) :
    filter_jobs kf jobs req =
      ((jobs.filter (keepJob kf req)).map (attachScore kf)).insertionSort scoreDesc := by
  unfold filter_jobs
  rw [foldl_scoreStep]
  simp

/-- Inserting into the stable descending sort passes only over
strictly-greater keys, so filtering at any fixed key value commutes with
the insertion. -/
theorem filter_key_orderedInsert (s : Int) (x : Job) :
    ∀ (L : List Job),
      ((L.orderedInsert scoreDesc x).filter (fun j => sortKey j == s)) =
        (if sortKey x == s then x :: L.filter (fun j => sortKey j == s)
         else L.filter (fun j => sortKey j == s)) := by
  intro L
  induction L with
  | nil => simp [List.orderedInsert, List.filter_cons]
  | cons b l ih =>
    rw [List.orderedInsert]
    by_cases hr : scoreDesc x b
    · rw [if_pos hr, List.filter_cons]
    · rw [if_neg hr, List.filter_cons, ih, List.filter_cons]
      by_cases hx : (sortKey x == s) = true
      · have hxs : sortKey x = s := by simpa using hx
        have hb : ¬ (sortKey b == s) = true := by
          unfold scoreDesc at hr
          simp only [beq_iff_eq]
          omega
        simp [hx, hb]
      · simp [hx]

/-- Stable insertion sort preserves the filtered sublist at every fixed
key value (the stability property). -/
theorem filter_key_insertionSort (s : Int) :
    ∀ (L : List Job),
      ((L.insertionSort scoreDesc).filter (fun j => sortKey j == s)) =
        L.filter (fun j => sortKey j == s) := by
  intro L
  induction L with
  | nil => rfl
  | cons x l ih =>
    rw [List.insertionSort, filter_key_orderedInsert, ih, List.filter_cons]

/-- C7: `filter_jobs` returns exactly the attached versions of the jobs
passing the internship gate (when required) and the score threshold — a
permutation of that kept list — sorted descending by `relevance_score`,
and stably so: at every score value the surviving jobs appear in their
original relative order. -/
theorem filter_jobs_spec (kf : KeywordFilter) (jobs : List Job) (req : Bool) :
    (filter_jobs kf jobs req).Perm
      ((jobs.filter (keepJob kf req)).map (attachScore kf)) ∧
    (filter_jobs kf jobs req).Sorted scoreDesc ∧
    (∀ s : Int, (filter_jobs kf jobs req).filter (fun j => sortKey j == s) =
      ((jobs.filter (keepJob kf req)).map (attachScore kf)).filter
        (fun j => sortKey j == s)) := by
  rw [filter_jobs_eq]
  exact ⟨List.perm_insertionSort scoreDesc _,
    List.sorted_insertionSort scoreDesc _,
    fun s => filter_key_insertionSort s _⟩

/-- C8: the scorer and the deduplicator never alter the identifying fields
of a job: every job in `filter_jobs`' output agrees with some input job on
`title`, `company`, `location`, `description`, `url`, `posted_date`,
`source` and `id` (only `relevance_score`/`score_breakdown` are attached),
and every job in `deduplicate`'s output is literally an input job. -/
theorem scorer_dedup_frame (kf : KeywordFilter) (req : Bool)
    (d : JobDeduplicator) (jobs jobs2 : List Job) :
    (∀ j ∈ filter_jobs kf jobs req, ∃ j' ∈ jobs, sameCore j j') ∧
    (∀ j ∈ deduplicate d jobs2, j ∈ jobs2) := by
  constructor
  · intro j hj
    rw [filter_jobs_eq, List.mem_insertionSort] at hj
    rcases List.mem_map.mp hj with ⟨j', hj', rfl⟩
    refine ⟨j', (List.mem_filter.mp hj').1, ?_⟩
    unfold sameCore attachScore
    exact ⟨rfl, rfl, rfl, rfl, rfl, rfl, rfl, rfl⟩
  · intro j hj
    exact (dedup_sublist_aux d jobs2).subset hj

/-- Witness for C8: the scored output job for `jobD` matches `jobD` on all
core fields, and the deduplicated survivor of a concrete pair was an input
job. -/
theorem scorer_dedup_frame_witness :
    (∃ j' ∈ [jobD], sameCore (attachScore kf0 jobD) j') ∧
    exJobA ∈ [exJobA, exJobB] :=
  ⟨(scorer_dedup_frame kf0 true defaultDedup [jobD] [exJobA, exJobB]).1
      (attachScore kf0 jobD) (by decide),
   (scorer_dedup_frame kf0 true defaultDedup [jobD] [exJobA, exJobB]).2
      exJobA (by decide)⟩

end JobPipeline
